import Mathlib

/-!
Shallow embedding of the IPCGLpy repository (src/AnalogGauge.py, src/Arrow.py).

Modelling conventions:
* Python floats are modelled exactly: by `ℚ` in the gauge (whose arithmetic is
  `+ - * /` on rationals) and by `ℝ` in the arrow primitive (which uses
  `sqrt`, `cos`, `sin`, `arctan2`).
* Python `int(x)` (truncation toward zero) is `pyIntQ` / `pyIntR`;
  Python `//` (floor division) is `pyDiv`.
* The external rasterization library (cv2) is modelled freely: an image is an
  opaque original buffer (shape + content tag) together with the ordered list
  of primitive draw commands issued against it.  Deterministic external
  helpers (`cos(radians _)`, `sin(radians _)`, `getTextSize`) are passed in as
  function parameters.
* Python raising an exception in the constructor is modelled by `Except`.
* In-place mutation of the caller-supplied buffer is modelled by threading the
  buffer explicitly: gauge operations return the new content of the caller's
  buffer (the gauge aliases it: `self.base_image = image`), while the arrow
  primitive stores a copy (`self.image = image.copy()`), so its draw method
  never touches the caller's buffer.
* The exact model agrees with IEEE-double evaluation on every integer output
  asserted by the theorems below.  Two known divergences exist and the
  theorems deliberately avoid them: exact `factor * factor2 = 1` (the float
  factors are only approximately reciprocal, so the round-trip theorem states
  a one-unit bracket, not an equality), and the y coordinates of the stored
  second arrowhead side point and of `base_center` in the 44-px scenario
  (ideal arithmetic truncates exactly 72.0 to 72 where the float pipeline
  computes 71.99…9 and truncates to 71).
-/

/-- Python `int(q)` on an exact rational: truncation toward zero. -/
def pyIntQ (q : ℚ) : ℤ := if 0 ≤ q then ⌊q⌋ else ⌈q⌉

/-- Python floor division `a // b`. -/
def pyDiv (a b : ℤ) : ℤ := Int.fdiv a b

/-- Python `range(0, stop, step)` over integers (empty for `step < 0` with
positive `stop`; `step = 0` raises and is checked separately by callers). -/
def pyRange (stop step : ℤ) : List ℤ :=
  if step ≤ 0 ∨ stop ≤ 0 then []
  else (List.range ((stop - 1).toNat / step.toNat + 1)).map (fun i => (i : ℤ) * step)

/-- Exceptions the gauge constructor can raise. -/
inductive PyError where
  | valueError
  | zeroDivisionError
  deriving DecidableEq, Repr

/-- A primitive cv2 draw call, recorded with its arguments. -/
inductive DrawCmd where
  | ellipse (center axes : ℤ × ℤ) (rot startAng endAng : ℤ)
      (color : ℤ × ℤ × ℤ) (th : ℤ)
  | line (p q : ℤ × ℤ) (color : ℤ × ℤ × ℤ) (th : ℤ) (antialiased : Bool)
  | circle (c : ℤ × ℤ) (radius : ℤ) (color : ℤ × ℤ × ℤ) (th : ℤ)
  | putText (text : String) (org : ℤ × ℤ) (fontScale : ℚ)
      (color : ℤ × ℤ × ℤ) (th : ℤ) (antialiased : Bool)
  | fillPoly (pts : List (ℤ × ℤ)) (color : ℤ × ℤ × ℤ)
  | arrowedLine (p q : ℤ × ℤ) (color : ℤ × ℤ × ℤ) (th : ℤ) (tipLen : ℚ)
  deriving DecidableEq, Repr

/-- A numpy image buffer: its numpy shape, an opaque tag standing for the
original pixel contents, and the draw commands issued onto it since. -/
structure Image where
  shape : List Nat
  tag : Nat
  cmds : List DrawCmd
  deriving DecidableEq, Repr

/-- Issue one draw command onto an image. -/
def Image.draw (img : Image) (c : DrawCmd) : Image :=
  { img with cmds := img.cmds ++ [c] }

/-- Issue a list of draw commands onto an image. -/
def Image.drawAll (img : Image) (cs : List DrawCmd) : Image :=
  { img with cmds := img.cmds ++ cs }

/-- The state of an `AnalogGauge` instance (src/AnalogGauge.py), with the
fields the constructor stores.  `position` is the `_position` attribute (it is
declared `int` in the source but holds a float after `SetValue`, so it is a
rational here); `background` is the `self.background` snapshot. -/
structure AnalogGauge where
  max_value : ℤ
  min_value : ℤ
  units : String
  minor_marks : ℤ
  physvalue : ℤ
  position : ℚ
  start_angle : ℤ
  arch : ℤ
  end_angle : ℤ
  range : ℤ
  factor : ℚ
  factor2 : ℚ
  center : ℤ × ℤ
  radius : ℤ
  scale_color : ℤ × ℤ × ℤ
  needle_color : ℤ × ℤ × ℤ
  text_color : ℤ × ℤ × ℤ
  height : ℤ
  width : ℤ
  background : Image
  deriving DecidableEq, Repr

namespace AnalogGauge

/-- `AnalogGauge.__init__`.  `cosdeg`/`sindeg` model the deterministic
pipeline `math.cos (math.radians _)` / `math.sin (math.radians _)` applied to
an angle in degrees; `textSize` models `cv2.getTextSize` at the fixed font
parameters used by the labels.  Returns the constructed instance together
with the new content of the caller-supplied buffer (which the constructor
aliases as `self.base_image` and draws the static dial into, in place).
Raises (`Except.error`) exactly where Python does: a non-3-channel image
(`ValueError`), `arch / self.range` with zero range (`ZeroDivisionError`),
`self.range / arch` with zero arch (`ZeroDivisionError`), and a zero
`minor_marks` step in the mark loop's `range()` (`ValueError`). -/
def init (cosdeg sindeg : ℚ → ℚ) (textSize : String → ℤ × ℤ)
    (image : Image) (max_value min_value minor_marks : ℤ) (units : String)
    (arch phase : ℤ) : Except PyError (AnalogGauge × Image) :=
  if image.shape.length ≠ 3 ∨ image.shape.getD 2 0 ≠ 3 then .error .valueError
  else
    let height : ℤ := (image.shape.getD 0 0 : ℕ)
    let width : ℤ := (image.shape.getD 1 0 : ℕ)
    let rng : ℤ := |max_value - min_value|
    if rng = 0 then .error .zeroDivisionError
    else if arch = 0 then .error .zeroDivisionError
    else if minor_marks = 0 then .error .valueError
    else
      let factor : ℚ := (arch : ℚ) / (rng : ℚ)
      let factor2 : ℚ := (rng : ℚ) / (arch : ℚ)
      let start_angle : ℤ := phase
      let end_angle : ℤ := phase + arch
      let center : ℤ × ℤ := (pyDiv width 2, pyDiv height 2)
      let radius : ℤ := pyDiv (min width height) 2 - 60
      let scale_color : ℤ × ℤ × ℤ := (200, 200, 200)
      let needle_color : ℤ × ℤ × ℤ := (0, 0, 255)
      let text_color : ℤ × ℤ × ℤ := (255, 255, 255)
      let arcCmd : DrawCmd :=
        .ellipse center (radius, radius) 0 start_angle end_angle scale_color 2
      let markCmds : List DrawCmd :=
        (pyRange (rng + 1) minor_marks).flatMap (fun pos =>
          let angle : ℚ := (start_angle : ℚ) + (pos : ℚ) * factor
          let startPt : ℤ × ℤ :=
            (pyIntQ ((center.1 : ℚ) + cosdeg angle * ((radius - 10 : ℤ) : ℚ)),
             pyIntQ ((center.2 : ℚ) + sindeg angle * ((radius - 10 : ℤ) : ℚ)))
          let endPt : ℤ × ℤ :=
            (pyIntQ ((center.1 : ℚ) + cosdeg angle * (radius : ℚ)),
             pyIntQ ((center.2 : ℚ) + sindeg angle * (radius : ℚ)))
          let label : String := toString (min_value + pos)
          let tw : ℤ := (textSize label).1
          let tht : ℤ := (textSize label).2
          let lx : ℤ := pyIntQ ((center.1 : ℚ)
            + cosdeg angle * ((radius + 25 : ℤ) : ℚ) - (tw : ℚ) / 2)
          let ly : ℤ := pyIntQ ((center.2 : ℚ)
            + sindeg angle * ((radius + 25 : ℤ) : ℚ) + (tht : ℚ) / 2)
          [.line startPt endPt scale_color 2 false,
           .putText label (lx, ly) (1/2) text_color 1 true])
      let unitsCmd : DrawCmd :=
        .putText units (center.1 - 30, center.2 + 50) (4/5) text_color 2 true
      let buf : Image := image.drawAll ([arcCmd] ++ markCmds ++ [unitsCmd])
      .ok ({ max_value := max_value, min_value := min_value, units := units,
             minor_marks := minor_marks, physvalue := min_value, position := 0,
             start_angle := start_angle, arch := arch, end_angle := end_angle,
             range := rng, factor := factor, factor2 := factor2,
             center := center, radius := radius, scale_color := scale_color,
             needle_color := needle_color, text_color := text_color,
             height := height, width := width, background := buf }, buf)

/-- The `needle_angle` property getter: `self._position - self.start_angle`. -/
def needle_angle (g : AnalogGauge) : ℚ := g.position - (g.start_angle : ℚ)

/-- The `needle_angle` property setter:
`self.physvalue = int(value * self.factor2) + self.min_value;
 self._position = value + self.start_angle`. -/
def set_needle_angle (g : AnalogGauge) (value : ℚ) : AnalogGauge :=
  { g with physvalue := pyIntQ (value * g.factor2) + g.min_value,
           position := value + (g.start_angle : ℚ) }

/-- `GetValue`: returns `self.physvalue`. -/
def GetValue (g : AnalogGauge) : ℤ := g.physvalue

/-- `SetValue`: clamps `value` to `[min_value, max_value]`, stores it in
`physvalue` and stores `start_angle + value * factor` in `_position`. -/
def SetValue (g : AnalogGauge) (value : ℤ) : AnalogGauge :=
  let v : ℤ := if value < g.min_value then g.min_value
    else if value > g.max_value then g.max_value else value
  { g with physvalue := v, position := (g.start_angle : ℚ) + (v : ℚ) * g.factor }

/-- The image built by `update_display`: a copy of `self.background` with the
needle line, the hub circle and the value text drawn on top. -/
def displayImage (cosdeg sindeg : ℚ → ℚ) (g : AnalogGauge) : Image :=
  let needle_length : ℤ := g.radius - 30
  let needle_end : ℤ × ℤ :=
    (pyIntQ ((g.center.1 : ℚ) + cosdeg g.position * (needle_length : ℚ)),
     pyIntQ ((g.center.2 : ℚ) + sindeg g.position * (needle_length : ℚ)))
  ((g.background.draw (.line g.center needle_end g.needle_color 3 true)).draw
      (.circle g.center 6 g.needle_color (-1))).draw
    (.putText (toString g.physvalue) (g.center.1 - 30, g.center.2 + 20) 1
      g.text_color 2 true)

end AnalogGauge

/-- A gauge instance together with the caller-supplied buffer it aliases as
`self.base_image`. -/
structure GaugeWorld where
  gauge : AnalogGauge
  buffer : Image
  deriving DecidableEq, Repr

/-- `update_display`: renders the dynamic overlay onto a copy of
`self.background` and writes the result into the caller's buffer in place
(`self.base_image[:] = display_image[:]`).  No gauge field changes. -/
def update_display (cosdeg sindeg : ℚ → ℚ) (w : GaugeWorld) : GaugeWorld :=
  { w with buffer := w.gauge.displayImage cosdeg sindeg }

/-! ## Arrow (src/Arrow.py) -/

namespace Arrow

/-- Python `int(x)` on a real: truncation toward zero. -/
noncomputable def pyIntR (x : ℝ) : ℤ := if 0 ≤ x then ⌊x⌋ else ⌈x⌉

/-- Python `str.lower()`, character by character (the cap styles used here
are ASCII). -/
def pyLower (s : String) : String := ⟨s.data.map Char.toLower⟩

/-- `arrow_vec = np.array(end_point) - np.array(start_point)`, as a real
vector. -/
def vecR (s e : ℤ × ℤ) : ℝ × ℝ := (((e.1 - s.1 : ℤ) : ℝ), ((e.2 - s.2 : ℤ) : ℝ))

/-- `arrow_length = np.linalg.norm(arrow_vec)`. -/
noncomputable def arrow_length (s e : ℤ × ℤ) : ℝ :=
  Real.sqrt ((vecR s e).1 ^ 2 + (vecR s e).2 ^ 2)

/-- `arrowhead_length = max(1, int(tip_length * arrow_length))`. -/
noncomputable def arrowhead_length (s e : ℤ × ℤ) (tip_length : ℚ) : ℤ :=
  max 1 (pyIntR ((tip_length : ℝ) * arrow_length s e))

/-- `angle = np.arctan2(arrow_vec[1], arrow_vec[0])`; `arctan2 y x` is the
argument of the complex number `x + y*I`, in `(-π, π]`, with `arctan2 0 0 = 0`,
which is `Complex.arg`. -/
noncomputable def angle (s e : ℤ × ℤ) : ℝ :=
  Complex.arg ⟨(vecR s e).1, (vecR s e).2⟩

/-- The exact (pre-truncation) first side point of the arrowhead triangle:
`end - arrowhead_length * (cos (angle - π/6), sin (angle - π/6))`. -/
noncomputable def p1exact (s e : ℤ × ℤ) (tip_length : ℚ) : ℝ × ℝ :=
  ((e.1 : ℝ) - (arrowhead_length s e tip_length : ℝ)
      * Real.cos (angle s e - Real.pi / 6),
   (e.2 : ℝ) - (arrowhead_length s e tip_length : ℝ)
      * Real.sin (angle s e - Real.pi / 6))

/-- The exact (pre-truncation) second side point of the arrowhead triangle:
`end - arrowhead_length * (cos (angle + π/6), sin (angle + π/6))`. -/
noncomputable def p2exact (s e : ℤ × ℤ) (tip_length : ℚ) : ℝ × ℝ :=
  ((e.1 : ℝ) - (arrowhead_length s e tip_length : ℝ)
      * Real.cos (angle s e + Real.pi / 6),
   (e.2 : ℝ) - (arrowhead_length s e tip_length : ℝ)
      * Real.sin (angle s e + Real.pi / 6))

/-- `p1`, with the source's `int(...)` truncation of each coordinate. -/
noncomputable def p1 (s e : ℤ × ℤ) (tip_length : ℚ) : ℤ × ℤ :=
  (pyIntR (p1exact s e tip_length).1, pyIntR (p1exact s e tip_length).2)

/-- `p2`, with the source's `int(...)` truncation of each coordinate. -/
noncomputable def p2 (s e : ℤ × ℤ) (tip_length : ℚ) : ℤ × ℤ :=
  (pyIntR (p2exact s e tip_length).1, pyIntR (p2exact s e tip_length).2)

/-- `base_center = ((p1[0] + p2[0]) // 2, (p1[1] + p2[1]) // 2)`. -/
noncomputable def base_center (s e : ℤ × ℤ) (tip_length : ℚ) : ℤ × ℤ :=
  (pyDiv ((p1 s e tip_length).1 + (p2 s e tip_length).1) 2,
   pyDiv ((p1 s e tip_length).2 + (p2 s e tip_length).2) 2)

open scoped Classical in
/-- The draw commands the shaft branch of `draw_arrow` issues for a solid
arrowhead, by cap style.  The `square` branch guards the division by the
shaft length `L = np.hypot(dx, dy)` with `if L != 0`, falling back to a plain
line. -/
noncomputable def shaftCmds (s e : ℤ × ℤ) (tip_length : ℚ)
    (color : ℤ × ℤ × ℤ) (th : ℤ) (shaft_cap : String) : List DrawCmd :=
  let bc := base_center s e tip_length
  if pyLower shaft_cap = "round" then
    [.line s bc color th true,
     .circle s (pyDiv th 2) color (-1),
     .circle bc (pyDiv th 2) color (-1)]
  else if pyLower shaft_cap = "square" then
    let dx : ℤ := bc.1 - s.1
    let dy : ℤ := bc.2 - s.2
    let L : ℝ := Real.sqrt ((dx : ℝ) ^ 2 + (dy : ℝ) ^ 2)
    if L ≠ 0 then
      let udx : ℝ := (dx : ℝ) / L
      let udy : ℝ := (dy : ℝ) / L
      let pdx : ℝ := -udy
      let pdy : ℝ := udx
      let half_thick : ℝ := (th : ℝ) / 2
      [.fillPoly
        [(pyIntR ((s.1 : ℝ) + pdx * half_thick), pyIntR ((s.2 : ℝ) + pdy * half_thick)),
         (pyIntR ((s.1 : ℝ) - pdx * half_thick), pyIntR ((s.2 : ℝ) - pdy * half_thick)),
         (pyIntR ((bc.1 : ℝ) - pdx * half_thick), pyIntR ((bc.2 : ℝ) - pdy * half_thick)),
         (pyIntR ((bc.1 : ℝ) + pdx * half_thick), pyIntR ((bc.2 : ℝ) + pdy * half_thick))]
        color]
    else [.line s bc color th true]
  else [.line s bc color th true]

/-- All draw commands one `draw_arrow` call issues, in order. -/
noncomputable def draw_arrow_cmds (s e : ℤ × ℤ) (tip_length : ℚ)
    (color : ℤ × ℤ × ℤ) (th : ℤ) (solid_arrowhead : Bool)
    (shaft_cap : String) : List DrawCmd :=
  if solid_arrowhead then
    shaftCmds s e tip_length color th shaft_cap
      ++ [.fillPoly [e, p1 s e tip_length, p2 s e tip_length] color]
  else
    [.arrowedLine s e color th tip_length]

/-- The heap cells an `Arrow` instance touches: the caller's buffer passed to
`__init__`, and the instance's own `self.image`. -/
structure ArrowWorld where
  caller : Image
  image : Image
  deriving DecidableEq, Repr

/-- `cv2.cvtColor(image, cv2.COLOR_GRAY2BGR)`: a fresh 3-channel image with
the same content. -/
def cvtGray (img : Image) : Image := { img with shape := img.shape ++ [3] }

/-- `Arrow.__init__`: for a 2-d (grayscale) buffer, `self.image` is a fresh
converted image; otherwise `self.image = image.copy()` — a fresh buffer with
the caller's content, not an alias of the caller's buffer. -/
def init (image : Image) : ArrowWorld :=
  if image.shape.length = 2 then ⟨image, cvtGray image⟩ else ⟨image, image⟩

/-- `Arrow.draw_arrow`: issues its draw commands onto `self.image` only; the
caller's buffer is untouched (the constructor copied it). -/
noncomputable def draw_arrow (w : ArrowWorld) (s e : ℤ × ℤ) (tip_length : ℚ)
    (color : ℤ × ℤ × ℤ) (th : ℤ) (solid_arrowhead : Bool)
    (shaft_cap : String) : ArrowWorld :=
  { w with image :=
      w.image.drawAll (draw_arrow_cmds s e tip_length color th solid_arrowhead shaft_cap) }

/-- `Arrow.get_image`: returns `self.image`. -/
def get_image (w : ArrowWorld) : Image := w.image

end Arrow

/-! ## Concrete fixtures shared by counterexamples and witnesses -/

/-- Constant stand-in for the external `cos(radians _)` helper. -/
def cF0 : ℚ → ℚ := fun _ => 0

/-- Constant stand-in for the external `sin(radians _)` helper. -/
def sF0 : ℚ → ℚ := fun _ => 0

/-- Constant stand-in for the external `cv2.getTextSize` helper. -/
def ts0 : String → ℤ × ℤ := fun _ => (0, 0)

/-- A 4×4 3-channel buffer with no draw commands yet. -/
def img0 : Image := ⟨[4, 4, 3], 0, []⟩

instance : Inhabited Image := ⟨⟨[], 0, []⟩⟩

instance : Inhabited AnalogGauge :=
  ⟨⟨0, 0, "", 0, 0, 0, 0, 0, 0, 0, 0, 0, (0, 0), 0, (0, 0, 0), (0, 0, 0),
    (0, 0, 0), 0, 0, ⟨[], 0, []⟩⟩⟩

/-- The gauge `AnalogGauge(img0, max_value=2, min_value=1, minor_marks=1,
units="", arch=2, phase=0)` with its mutated buffer. -/
def pairA : AnalogGauge × Image :=
  (AnalogGauge.init cF0 sF0 ts0 img0 2 1 1 "" 2 0).toOption.getD default

/-- The gauge of `pairA`. -/
def gaugeA : AnalogGauge := pairA.1

/-- The buffer of `pairA`. -/
def bufA : Image := pairA.2

/-- The gauge `AnalogGauge(img0, max_value=1, min_value=0, minor_marks=1,
units="", arch=2, phase=0)` with its mutated buffer. -/
def pairB : AnalogGauge × Image :=
  (AnalogGauge.init cF0 sF0 ts0 img0 1 0 1 "" 2 0).toOption.getD default

/-- The gauge of `pairB`. -/
def gaugeB : AnalogGauge := pairB.1

/-- The buffer of `pairB`. -/
def bufB : Image := pairB.2

/-- The gauge `AnalogGauge(img0, max_value=1, min_value=0, minor_marks=1,
units="", arch=2, phase=180)` (nonzero phase) with its mutated buffer. -/
def pairC : AnalogGauge × Image :=
  (AnalogGauge.init cF0 sF0 ts0 img0 1 0 1 "" 2 180).toOption.getD default

/-- The gauge of `pairC`. -/
def gaugeC : AnalogGauge := pairC.1

/-- The buffer of `pairC`. -/
def bufC : Image := pairC.2

/-- A caller-owned 150×300 3-channel buffer (as in the Arrow demo). -/
def imgA : Image := ⟨[150, 300, 3], 7, []⟩

/-! ## Inversion of a successful gauge construction -/

/-- Field values of a successfully constructed gauge, together with the facts
the successful construction implies about the caller's buffer: the dial was
drawn into that very buffer (same shape and original content, commands
appended), and `self.background` snapshots it. -/
theorem AnalogGauge.init_ok_fields
    (cosdeg sindeg : ℚ → ℚ) (textSize : String → ℤ × ℤ) (image : Image)
    (M m mm : ℤ) (u : String) (a p : ℤ) (g : AnalogGauge) (buf : Image)
    (h : AnalogGauge.init cosdeg sindeg textSize image M m mm u a p = .ok (g, buf)) :
    g.max_value = M ∧ g.min_value = m ∧ g.physvalue = m ∧ g.position = 0 ∧
    g.start_angle = p ∧ g.arch = a ∧ g.range = |M - m| ∧
    g.factor = (a : ℚ) / ((|M - m| : ℤ) : ℚ) ∧
    g.factor2 = ((|M - m| : ℤ) : ℚ) / (a : ℚ) ∧
    g.background = buf ∧ buf.shape = image.shape ∧ buf.tag = image.tag ∧
    (∃ cs, buf.cmds = image.cmds ++ cs) ∧ |M - m| ≠ 0 ∧ a ≠ 0 := by
  unfold AnalogGauge.init at h
  split at h
  · exact absurd h (by simp)
  · dsimp only at h
    split at h
    · exact absurd h (by simp)
    · split at h
      · exact absurd h (by simp)
      · split at h
        · exact absurd h (by simp)
        · injection h with h'
          injection h' with hg hb
          subst hg
          subst hb
          refine ⟨rfl, rfl, rfl, rfl, rfl, rfl, rfl, rfl, rfl, rfl, rfl, rfl,
            ⟨_, rfl⟩, ?_, ?_⟩ <;> assumption

/-- `pairA` really is the result of a successful construction. -/
theorem initA_eq : AnalogGauge.init cF0 sF0 ts0 img0 2 1 1 "" 2 0
    = .ok (gaugeA, bufA) := rfl

/-- `pairB` really is the result of a successful construction. -/
theorem initB_eq : AnalogGauge.init cF0 sF0 ts0 img0 1 0 1 "" 2 0
    = .ok (gaugeB, bufB) := rfl

/-- `pairC` really is the result of a successful construction. -/
theorem initC_eq : AnalogGauge.init cF0 sF0 ts0 img0 1 0 1 "" 2 180
    = .ok (gaugeC, bufC) := rfl

/-! ## Small facts about the Python-operation models -/

/-- Truncation toward zero is the identity on integers. -/
theorem pyIntQ_intCast (n : ℤ) : pyIntQ (n : ℚ) = n := by
  unfold pyIntQ
  split <;> simp

/-! ## Claims -/

/-- C1: `SetValue(v)` first clamps `v` to `[minValue, maxValue]`, then sets
`currentValue` (`physvalue`) to the clamped value and `currentAngle`
(`_position`) to `startAngle + clamped(v) * scaleFactor`; for `v` in range
`GetValue()` afterwards returns exactly `v`, and out-of-range `v` is stored
as the nearest bound. -/
theorem C1_SetValue_clamps (g : AnalogGauge) (v : ℤ)
    (hrange : g.min_value ≤ g.max_value) :
    (g.SetValue v).physvalue = max g.min_value (min g.max_value v) ∧
    (g.SetValue v).position = (g.start_angle : ℚ)
      + ((max g.min_value (min g.max_value v) : ℤ) : ℚ) * g.factor ∧
    (g.min_value ≤ v → v ≤ g.max_value → (g.SetValue v).GetValue = v) ∧
    (v < g.min_value → (g.SetValue v).physvalue = g.min_value) ∧
    (g.max_value < v → (g.SetValue v).physvalue = g.max_value) := by
  have hclamp : (if v < g.min_value then g.min_value
      else if v > g.max_value then g.max_value else v)
      = max g.min_value (min g.max_value v) := by
    split
    · omega
    · split <;> omega
  unfold AnalogGauge.SetValue AnalogGauge.GetValue
  dsimp only
  rw [hclamp]
  refine ⟨rfl, rfl, ?_, ?_, ?_⟩ <;> intros <;> omega

/-- Witness for C1 at the concrete gauge `gaugeB` and `v = 1`. -/
theorem C1_witness :
    gaugeB.min_value ≤ gaugeB.max_value ∧
    ((gaugeB.SetValue 1).physvalue
        = max gaugeB.min_value (min gaugeB.max_value 1) ∧
      (gaugeB.SetValue 1).position = (gaugeB.start_angle : ℚ)
        + ((max gaugeB.min_value (min gaugeB.max_value 1) : ℤ) : ℚ) * gaugeB.factor ∧
      (gaugeB.min_value ≤ 1 → 1 ≤ gaugeB.max_value → (gaugeB.SetValue 1).GetValue = 1) ∧
      (1 < gaugeB.min_value → (gaugeB.SetValue 1).physvalue = gaugeB.min_value) ∧
      (gaugeB.max_value < 1 → (gaugeB.SetValue 1).physvalue = gaugeB.max_value)) :=
  ⟨by decide, C1_SetValue_clamps gaugeB 1 (by decide)⟩

/-- C2 counterexample: on the gauge `gaugeB` (`factor2 = 1/2`) the angle-based
setter with `a = -1` stores `int(-1 * 0.5) = 0` (truncation toward zero),
while the claimed `floor(-1 * 0.5) + minValue` is `-1`. -/
theorem C2_counterexample :
    (gaugeB.set_needle_angle (-1)).physvalue = 0 ∧
    ⌊(-1 : ℚ) * gaugeB.factor2⌋ + gaugeB.min_value = -1 ∧
    (gaugeB.set_needle_angle (-1)).physvalue
      ≠ ⌊(-1 : ℚ) * gaugeB.factor2⌋ + gaugeB.min_value := by
  obtain ⟨-, hmin, -, -, -, -, -, -, hf2, -, -, -, -, -, -⟩ :=
    AnalogGauge.init_ok_fields _ _ _ _ _ _ _ _ _ _ _ _ initB_eq
  unfold AnalogGauge.set_needle_angle
  dsimp only
  rw [hf2, hmin]
  have hceil : (⌈(-(1 / 2) : ℚ)⌉ : ℤ) = 0 := by
    rw [Int.ceil_eq_iff]
    constructor <;> norm_num
  norm_num [pyIntQ, hceil]

/-- C2 (amended): for every successfully constructed gauge and every integer
`a`, the angle-based setter applies no clamping and sets
`currentValue = int(a * inverseScaleFactor) + minValue` — `int` being
Python's truncation toward zero, not `floor` — and
`currentAngle = a + startAngle`, where
`inverseScaleFactor = |maxValue - minValue| / arch`. -/
theorem C2_angle_setter (cosdeg sindeg : ℚ → ℚ) (textSize : String → ℤ × ℤ)
    (image : Image) (M m mm : ℤ) (u : String) (a p : ℤ)
    (g : AnalogGauge) (buf : Image) (v : ℤ)
    (h : AnalogGauge.init cosdeg sindeg textSize image M m mm u a p = .ok (g, buf)) :
    (g.set_needle_angle (v : ℚ)).physvalue
        = pyIntQ ((v : ℚ) * (((|M - m| : ℤ) : ℚ) / (a : ℚ))) + m ∧
    (g.set_needle_angle (v : ℚ)).position = (v : ℚ) + (p : ℚ) := by
  obtain ⟨-, hmin, -, -, hstart, -, -, -, hf2, -, -, -, -, -, -⟩ :=
    AnalogGauge.init_ok_fields _ _ _ _ _ _ _ _ _ _ _ _ h
  unfold AnalogGauge.set_needle_angle
  dsimp only
  rw [hf2, hmin, hstart]
  exact ⟨rfl, rfl⟩

/-- Witness for C2 at the concrete gauge `gaugeB` and `a = -1`. -/
theorem C2_witness :
    AnalogGauge.init cF0 sF0 ts0 img0 1 0 1 "" 2 0 = .ok (gaugeB, bufB) ∧
    ((gaugeB.set_needle_angle ((-1 : ℤ) : ℚ)).physvalue
        = pyIntQ (((-1 : ℤ) : ℚ) * (((|(1 : ℤ) - 0| : ℤ) : ℚ) / ((2 : ℤ) : ℚ))) + 0 ∧
      (gaugeB.set_needle_angle ((-1 : ℤ) : ℚ)).position
        = ((-1 : ℤ) : ℚ) + ((0 : ℤ) : ℚ)) :=
  ⟨initB_eq, C2_angle_setter cF0 sF0 ts0 img0 1 0 1 "" 2 0 gaugeB bufB (-1) initB_eq⟩

/-- C3 counterexample: on the gauge `gaugeA` (`minValue = 1`, `maxValue = 2`,
`arch = 2`) the round trip `SetValue(1)`, read `needle_angle`, feed it to the
angle setter, leaves `GetValue() = 2` — not `1`, and not explainable by the
one-unit truncation slack the claim allows. -/
theorem C3_counterexample :
    ((gaugeA.SetValue 1).set_needle_angle
        ((gaugeA.SetValue 1).needle_angle)).GetValue = 2 ∧
    (2 : ℤ) ≠ 1 ∧ (2 : ℤ) ≠ 0 := by
  obtain ⟨hmax, hmin, -, -, hstart, -, -, hf, hf2, -, -, -, -, -, -⟩ :=
    AnalogGauge.init_ok_fields _ _ _ _ _ _ _ _ _ _ _ _ initA_eq
  refine ⟨?_, by decide, by decide⟩
  unfold AnalogGauge.SetValue AnalogGauge.set_needle_angle
    AnalogGauge.needle_angle AnalogGauge.GetValue
  dsimp only
  rw [hmin, hmax, hstart, hf, hf2]
  rw [if_neg (by decide), if_neg (by decide)]
  norm_num [pyIntQ]

/-- C3 (amended): for every successfully constructed gauge and `v` in
`[minValue, maxValue]`, the round trip (`SetValue(v)`, read `needle_angle`,
pass it to the angle setter) leaves `GetValue()` within one unit of `int()`
truncation slack of `v + minValue` — the readback is shifted by `minValue`,
not equal to `v`.  In this exact-rational model the result is exactly
`v + minValue`, because `factor * factor2 = 1`; the program's float factors
are only approximately reciprocal, so its `int()` may land one unit away
(e.g. `gauge(min=0, max=7, arch=270)` with `v = 1` returns `0` under IEEE
arithmetic), and the theorem therefore asserts only the bracket. -/
theorem C3_roundtrip (cosdeg sindeg : ℚ → ℚ) (textSize : String → ℤ × ℤ)
    (image : Image) (M m mm : ℤ) (u : String) (a p : ℤ)
    (g : AnalogGauge) (buf : Image) (v : ℤ)
    (h : AnalogGauge.init cosdeg sindeg textSize image M m mm u a p = .ok (g, buf))
    (hv1 : g.min_value ≤ v) (hv2 : v ≤ g.max_value) :
    v + m - 1 ≤ ((g.SetValue v).set_needle_angle
        ((g.SetValue v).needle_angle)).GetValue ∧
    ((g.SetValue v).set_needle_angle
        ((g.SetValue v).needle_angle)).GetValue ≤ v + m + 1 := by
  obtain ⟨-, hmin, -, -, hstart, -, -, hf, hf2, -, -, -, -, hrng, ha⟩ :=
    AnalogGauge.init_ok_fields _ _ _ _ _ _ _ _ _ _ _ _ h
  have hA : ((a : ℤ) : ℚ) ≠ 0 := Int.cast_ne_zero.2 ha
  have hR : ((|M - m| : ℤ) : ℚ) ≠ 0 := Int.cast_ne_zero.2 hrng
  have hEq : ((g.SetValue v).set_needle_angle
      ((g.SetValue v).needle_angle)).GetValue = v + m := by
    unfold AnalogGauge.SetValue AnalogGauge.set_needle_angle
      AnalogGauge.needle_angle AnalogGauge.GetValue
    dsimp only
    rw [if_neg (not_lt.2 hv1), if_neg (not_lt.2 hv2), hmin, hstart, hf, hf2]
    have hone : (((a : ℤ) : ℚ) / ((|M - m| : ℤ) : ℚ))
        * (((|M - m| : ℤ) : ℚ) / ((a : ℤ) : ℚ)) = 1 := by
      rw [div_mul_div_comm, mul_comm ((|M - m| : ℤ) : ℚ) ((a : ℤ) : ℚ)]
      exact div_self (mul_ne_zero hA hR)
    have key : (((p : ℤ) : ℚ) + (v : ℚ) * (((a : ℤ) : ℚ) / ((|M - m| : ℤ) : ℚ))
          - ((p : ℤ) : ℚ)) * (((|M - m| : ℤ) : ℚ) / ((a : ℤ) : ℚ)) = ((v : ℤ) : ℚ) := by
      calc (((p : ℤ) : ℚ) + (v : ℚ) * (((a : ℤ) : ℚ) / ((|M - m| : ℤ) : ℚ))
            - ((p : ℤ) : ℚ)) * (((|M - m| : ℤ) : ℚ) / ((a : ℤ) : ℚ))
          = (v : ℚ) * ((((a : ℤ) : ℚ) / ((|M - m| : ℤ) : ℚ))
              * (((|M - m| : ℤ) : ℚ) / ((a : ℤ) : ℚ))) := by ring
        _ = ((v : ℤ) : ℚ) := by rw [hone, mul_one]
    rw [key, pyIntQ_intCast]
  rw [hEq]
  omega

/-- Witness for C3 at the concrete gauge `gaugeB` and `v = 1`. -/
theorem C3_witness :
    AnalogGauge.init cF0 sF0 ts0 img0 1 0 1 "" 2 0 = .ok (gaugeB, bufB) ∧
    gaugeB.min_value ≤ 1 ∧ (1 : ℤ) ≤ gaugeB.max_value ∧
    ((1 : ℤ) + 0 - 1 ≤ ((gaugeB.SetValue 1).set_needle_angle
        ((gaugeB.SetValue 1).needle_angle)).GetValue ∧
      ((gaugeB.SetValue 1).set_needle_angle
        ((gaugeB.SetValue 1).needle_angle)).GetValue ≤ 1 + 0 + 1) :=
  ⟨initB_eq, by decide, by decide,
    C3_roundtrip cF0 sF0 ts0 img0 1 0 1 "" 2 0 gaugeB bufB 1 initB_eq
      (by decide) (by decide)⟩

/-- C4: redraw is idempotent — `update_display()` changes no gauge field and
recomputes the display from the unchanged `background` snapshot, so a second
call with no intervening value or angle change leaves the caller-visible
buffer exactly as the first call left it. -/
theorem C4_update_display_idempotent (cosdeg sindeg : ℚ → ℚ) (w : GaugeWorld) :
    update_display cosdeg sindeg (update_display cosdeg sindeg w)
      = update_display cosdeg sindeg w := rfl

/-- C5 counterexample: constructing with `max_value == min_value` fails with a
raw `ZeroDivisionError` escaping the `arch / self.range` computation — the
code has no `InvalidRangeError` (its only errors are the documented
`ValueError` for a wrong channel count and this undocumented
`ZeroDivisionError`). -/
theorem C5_counterexample :
    AnalogGauge.init cF0 sF0 ts0 img0 5 5 1 "" 180 0
      = .error .zeroDivisionError := rfl

/-- C5 (amended): constructing a gauge with `maxValue == minValue` on a
well-shaped buffer fails at construction — with the unhandled
`ZeroDivisionError` from the `scaleFactor` division, not with an
`InvalidRangeError` or a documented equivalent — so no gauge instance is
created and no NaN/Inf geometry is produced. -/
theorem C5_equal_range_rejected (cosdeg sindeg : ℚ → ℚ)
    (textSize : String → ℤ × ℤ) (image : Image) (M mm : ℤ) (u : String)
    (a p : ℤ) (h3 : image.shape.length = 3) (hc : image.shape.getD 2 0 = 3) :
    AnalogGauge.init cosdeg sindeg textSize image M M mm u a p
      = .error .zeroDivisionError := by
  unfold AnalogGauge.init
  rw [if_neg (not_or.2 ⟨fun hne => hne h3, fun hne => hne hc⟩)]
  simp

/-- Witness for C5 at the concrete buffer `img0` and `max = min = 5`. -/
theorem C5_witness :
    img0.shape.length = 3 ∧ img0.shape.getD 2 0 = 3 ∧
    AnalogGauge.init cF0 sF0 ts0 img0 5 5 1 "" 180 0
      = .error .zeroDivisionError :=
  ⟨rfl, rfl, C5_equal_range_rejected cF0 sF0 ts0 img0 5 1 "" 180 0 rfl rfl⟩

/-- C8: every `update_display()` call leaves the `background` snapshot
unchanged (it renders onto a copy) and writes the newly rendered display into
the caller-supplied buffer in place; moreover a successful construction ties
that buffer to the gauge: the dial is drawn into the caller's own buffer
(same shape and original content, commands appended) and `background`
snapshots exactly it. -/
theorem C8_update_display_frame :
    (∀ (cosdeg sindeg : ℚ → ℚ) (w : GaugeWorld),
      (update_display cosdeg sindeg w).gauge.background = w.gauge.background ∧
      (update_display cosdeg sindeg w).buffer
        = w.gauge.displayImage cosdeg sindeg) ∧
    (∀ (cosdeg sindeg : ℚ → ℚ) (textSize : String → ℤ × ℤ) (image : Image)
      (M m mm : ℤ) (u : String) (a p : ℤ) (g : AnalogGauge) (buf : Image),
      AnalogGauge.init cosdeg sindeg textSize image M m mm u a p = .ok (g, buf) →
      buf = g.background ∧ buf.shape = image.shape ∧ buf.tag = image.tag ∧
      ∃ cs, buf.cmds = image.cmds ++ cs) := by
  refine ⟨fun _ _ _ => ⟨rfl, rfl⟩, ?_⟩
  intro cosdeg sindeg textSize image M m mm u a p g buf h
  obtain ⟨-, -, -, -, -, -, -, -, -, hbg, hshape, htag, hcs, -, -⟩ :=
    AnalogGauge.init_ok_fields _ _ _ _ _ _ _ _ _ _ _ _ h
  exact ⟨hbg.symm, hshape, htag, hcs⟩

/-- Witness for C8 at the concrete construction `initB_eq`. -/
theorem C8_witness :
    AnalogGauge.init cF0 sF0 ts0 img0 1 0 1 "" 2 0 = .ok (gaugeB, bufB) ∧
    (bufB = gaugeB.background ∧ bufB.shape = img0.shape ∧
      bufB.tag = img0.tag ∧ ∃ cs, bufB.cmds = img0.cmds ++ cs) :=
  ⟨initB_eq, C8_update_display_frame.2 cF0 sF0 ts0 img0 1 0 1 "" 2 0
    gaugeB bufB initB_eq⟩

/-- C10: immediately after a successful construction `GetValue()` returns
`minValue`, the stored needle position `_position` is `0`, and the
`needle_angle` property returns `-startAngle`; and the invariant
`currentAngle = startAngle + currentValue * scaleFactor` is not established
by construction itself — the concrete gauge `gaugeC` (phase 180) violates
it. -/
theorem C10_initial_state :
    (∀ (cosdeg sindeg : ℚ → ℚ) (textSize : String → ℤ × ℤ) (image : Image)
      (M m mm : ℤ) (u : String) (a p : ℤ) (g : AnalogGauge) (buf : Image),
      AnalogGauge.init cosdeg sindeg textSize image M m mm u a p = .ok (g, buf) →
      g.GetValue = g.min_value ∧ g.position = 0 ∧
      g.needle_angle = -(g.start_angle : ℚ)) ∧
    gaugeC.position
      ≠ (gaugeC.start_angle : ℚ) + (gaugeC.physvalue : ℚ) * gaugeC.factor := by
  constructor
  · intro cosdeg sindeg textSize image M m mm u a p g buf h
    obtain ⟨-, hmin, hphys, hpos, -, -, -, -, -, -, -, -, -, -, -⟩ :=
      AnalogGauge.init_ok_fields _ _ _ _ _ _ _ _ _ _ _ _ h
    refine ⟨?_, hpos, ?_⟩
    · unfold AnalogGauge.GetValue
      rw [hphys, hmin]
    · unfold AnalogGauge.needle_angle
      rw [hpos]
      ring
  · obtain ⟨-, -, hphys, hpos, hstart, -, -, hf, -, -, -, -, -, -, -⟩ :=
      AnalogGauge.init_ok_fields _ _ _ _ _ _ _ _ _ _ _ _ initC_eq
    rw [hpos, hstart, hphys, hf]
    norm_num

/-- Witness for C10 at the concrete construction `initB_eq`. -/
theorem C10_witness :
    AnalogGauge.init cF0 sF0 ts0 img0 1 0 1 "" 2 0 = .ok (gaugeB, bufB) ∧
    (gaugeB.GetValue = gaugeB.min_value ∧ gaugeB.position = 0 ∧
      gaugeB.needle_angle = -(gaugeB.start_angle : ℚ)) :=
  ⟨initB_eq, C10_initial_state.1 cF0 sF0 ts0 img0 1 0 1 "" 2 0
    gaugeB bufB initB_eq⟩

/-- `"round".lower() == "round"`. -/
theorem pyLower_round : Arrow.pyLower "round" = "round" := rfl

/-- `"square".lower() == "square"`. -/
theorem pyLower_square : Arrow.pyLower "square" = "square" := rfl

/-- `"square".lower() != "round"`. -/
theorem pyLower_square_ne_round : Arrow.pyLower "square" ≠ "round" := by decide

/-- C9 counterexample: after `Arrow(imgA)` and a solid round-cap `draw_arrow`
call, the caller's buffer is unchanged — no commands were issued onto it —
and differs from the arrow's drawn buffer, so the caller's array does not
reflect the mutation (`Arrow.__init__` stores `image.copy()`). -/
theorem C9_counterexample :
    (Arrow.draw_arrow (Arrow.init imgA) (250, 50) (30, 50) (1/5) (0, 0, 255) 8
        true "round").caller = imgA ∧
    Arrow.get_image (Arrow.draw_arrow (Arrow.init imgA) (250, 50) (30, 50)
        (1/5) (0, 0, 255) 8 true "round") ≠ imgA := by
  refine ⟨rfl, fun hEq => ?_⟩
  have h1 := congrArg (fun i => i.cmds.length) hEq
  simp [Arrow.get_image, Arrow.draw_arrow, Arrow.init, Arrow.draw_arrow_cmds,
    Arrow.shaftCmds, Image.drawAll, imgA, pyLower_round] at h1

/-- C9 (amended): `draw_arrow` writes its commands into the Arrow's own
buffer — the copy of the caller's buffer made at construction — and leaves
the caller's buffer untouched; the mutated buffer is what `get_image()`
returns, not the caller's array. -/
theorem C9_draws_into_copy (image : Image) (s e : ℤ × ℤ) (tip : ℚ)
    (color : ℤ × ℤ × ℤ) (th : ℤ) (solid : Bool) (cap : String)
    (h2 : image.shape.length ≠ 2) :
    (Arrow.draw_arrow (Arrow.init image) s e tip color th solid cap).caller
        = image ∧
    Arrow.get_image
        (Arrow.draw_arrow (Arrow.init image) s e tip color th solid cap)
      = image.drawAll (Arrow.draw_arrow_cmds s e tip color th solid cap) := by
  unfold Arrow.init Arrow.draw_arrow Arrow.get_image
  rw [if_neg h2]
  exact ⟨rfl, rfl⟩

/-- Witness for C9 at the concrete buffer `imgA`. -/
theorem C9_witness :
    imgA.shape.length ≠ 2 ∧
    ((Arrow.draw_arrow (Arrow.init imgA) (100, 80) (150, 80) (3/5) (0, 255, 0)
        10 true "square").caller = imgA ∧
      Arrow.get_image (Arrow.draw_arrow (Arrow.init imgA) (100, 80) (150, 80)
          (3/5) (0, 255, 0) 10 true "square")
        = imgA.drawAll (Arrow.draw_arrow_cmds (100, 80) (150, 80) (3/5)
            (0, 255, 0) 10 true "square")) :=
  ⟨by decide, C9_draws_into_copy imgA (100, 80) (150, 80) (3/5) (0, 255, 0)
    10 true "square" (by decide)⟩

/-! ## Real-number facts for the arrow geometry -/

/-- `int(x)` is the floor on nonnegative reals. -/
theorem pyIntR_eq_floor (x : ℝ) (hx : 0 ≤ x) : Arrow.pyIntR x = ⌊x⌋ := if_pos hx

/-- `int` of an integer is itself. -/
theorem pyIntR_intCast (n : ℤ) : Arrow.pyIntR (n : ℝ) = n := by
  unfold Arrow.pyIntR
  split <;> simp

/-- For a horizontal right-to-left arrow (`end` strictly left of `start`),
`np.arctan2` gives `π`. -/
theorem angle_horiz_left (sx ex y : ℤ) (h : ex < sx) :
    Arrow.angle (sx, y) (ex, y) = Real.pi := by
  unfold Arrow.angle Arrow.vecR
  dsimp only
  have h2 : ((y - y : ℤ) : ℝ) = 0 := by push_cast; ring
  rw [h2]
  have h3 : (⟨((ex - sx : ℤ) : ℝ), 0⟩ : ℂ) = (((ex - sx : ℤ) : ℝ) : ℂ) := rfl
  rw [h3]
  apply Complex.arg_ofReal_of_neg
  have h4 : (ex : ℝ) < (sx : ℝ) := by exact_mod_cast h
  push_cast
  linarith

/-- For a horizontal arrow the length is the coordinate difference. -/
theorem arrow_length_horiz (sx ex y : ℤ) (h : ex ≤ sx) :
    Arrow.arrow_length (sx, y) (ex, y) = ((sx - ex : ℤ) : ℝ) := by
  unfold Arrow.arrow_length Arrow.vecR
  dsimp only
  have h4 : (ex : ℝ) ≤ (sx : ℝ) := by exact_mod_cast h
  have h5 : ((ex - sx : ℤ) : ℝ) ^ 2 + ((y - y : ℤ) : ℝ) ^ 2
      = ((sx - ex : ℤ) : ℝ) ^ 2 := by push_cast; ring
  rw [h5, Real.sqrt_sq (by push_cast; linarith)]

/-- `cos (π + π/6) = -(√3/2)`. -/
theorem cos_pi_add_pi_div_six :
    Real.cos (Real.pi + Real.pi / 6) = -(Real.sqrt 3 / 2) := by
  rw [Real.cos_add, Real.cos_pi, Real.sin_pi, Real.cos_pi_div_six]
  ring

/-- `sin (π + π/6) = -(1/2)`. -/
theorem sin_pi_add_pi_div_six :
    Real.sin (Real.pi + Real.pi / 6) = -(1 / 2) := by
  rw [Real.sin_add, Real.sin_pi, Real.cos_pi, Real.sin_pi_div_six]
  ring

/-- Exact first side point of a horizontal right-to-left arrow. -/
theorem p1exact_horiz (sx ex y : ℤ) (tip : ℚ) (h : ex < sx) :
    Arrow.p1exact (sx, y) (ex, y) tip
      = ((ex : ℝ) + (Arrow.arrowhead_length (sx, y) (ex, y) tip : ℝ)
            * (Real.sqrt 3 / 2),
         (y : ℝ) - (Arrow.arrowhead_length (sx, y) (ex, y) tip : ℝ)
            * (1 / 2)) := by
  unfold Arrow.p1exact
  rw [angle_horiz_left sx ex y h, Real.cos_pi_sub, Real.sin_pi_sub,
    Real.cos_pi_div_six, Real.sin_pi_div_six]
  dsimp only
  rw [Prod.mk.injEq]
  constructor <;> ring

/-- Exact second side point of a horizontal right-to-left arrow. -/
theorem p2exact_horiz (sx ex y : ℤ) (tip : ℚ) (h : ex < sx) :
    Arrow.p2exact (sx, y) (ex, y) tip
      = ((ex : ℝ) + (Arrow.arrowhead_length (sx, y) (ex, y) tip : ℝ)
            * (Real.sqrt 3 / 2),
         (y : ℝ) + (Arrow.arrowhead_length (sx, y) (ex, y) tip : ℝ)
            * (1 / 2)) := by
  unfold Arrow.p2exact
  rw [angle_horiz_left sx ex y h, cos_pi_add_pi_div_six, sin_pi_add_pi_div_six]
  dsimp only
  rw [Prod.mk.injEq]
  constructor <;> ring

/-- `1 < √3 < 2`. -/
theorem sqrt3_bounds : 1 < Real.sqrt 3 ∧ Real.sqrt 3 < 2 := by
  constructor
  · have : Real.sqrt 1 < Real.sqrt 3 := Real.sqrt_lt_sqrt (by norm_num) (by norm_num)
    rwa [Real.sqrt_one] at this
  · rw [Real.sqrt_lt' (by norm_num)]
    norm_num

/-- `38 ≤ 22√3 < 39`. -/
theorem sqrt3_22_bounds : 38 ≤ 22 * Real.sqrt 3 ∧ 22 * Real.sqrt 3 < 39 := by
  have h1 : 22 * Real.sqrt 3 = Real.sqrt 1452 := by
    rw [show (1452 : ℝ) = 22 ^ 2 * 3 by norm_num,
      Real.sqrt_mul (by positivity), Real.sqrt_sq (by norm_num)]
  rw [h1]
  constructor
  · rw [Real.le_sqrt' (by norm_num)]
    norm_num
  · rw [Real.sqrt_lt' (by norm_num)]
    norm_num

/-- Scenario `start=(250,50)`, `end=(30,50)`: shaft length 220. -/
theorem arrowA_length : Arrow.arrow_length (250, 50) (30, 50) = 220 := by
  rw [arrow_length_horiz 250 30 50 (by norm_num)]
  norm_num

/-- Scenario `start=(250,50)`, `end=(30,50)`, `tip=0.2`: head length 44. -/
theorem arrowA_head : Arrow.arrowhead_length (250, 50) (30, 50) (1/5) = 44 := by
  unfold Arrow.arrowhead_length
  rw [arrowA_length]
  rw [show ((1/5 : ℚ) : ℝ) * 220 = ((44 : ℤ) : ℝ) by push_cast; norm_num]
  rw [pyIntR_intCast]
  decide

/-- Scenario A: exact first side point `(30 + 22√3, 28)`. -/
theorem arrowA_p1exact : Arrow.p1exact (250, 50) (30, 50) (1/5)
    = ((30 : ℝ) + 22 * Real.sqrt 3, (28 : ℝ)) := by
  rw [p1exact_horiz 250 30 50 (1/5) (by norm_num), arrowA_head, Prod.mk.injEq]
  constructor <;> push_cast <;> ring

/-- Scenario A: exact second side point `(30 + 22√3, 72)`. -/
theorem arrowA_p2exact : Arrow.p2exact (250, 50) (30, 50) (1/5)
    = ((30 : ℝ) + 22 * Real.sqrt 3, (72 : ℝ)) := by
  rw [p2exact_horiz 250 30 50 (1/5) (by norm_num), arrowA_head, Prod.mk.injEq]
  constructor <;> push_cast <;> ring

/-- `⌊30 + 22√3⌋ = 68`. -/
theorem floor_30_22sqrt3 : ⌊(30 : ℝ) + 22 * Real.sqrt 3⌋ = 68 := by
  obtain ⟨hlo, hhi⟩ := sqrt3_22_bounds
  rw [Int.floor_eq_iff]
  constructor <;> push_cast <;> linarith

/-- Scenario A: stored first side point `(68, 28)`. -/
theorem arrowA_p1 : Arrow.p1 (250, 50) (30, 50) (1/5) = (68, 28) := by
  unfold Arrow.p1
  rw [arrowA_p1exact]
  dsimp only
  rw [Prod.mk.injEq]
  constructor
  · rw [pyIntR_eq_floor _ (by positivity), floor_30_22sqrt3]
  · rw [show (28 : ℝ) = ((28 : ℤ) : ℝ) by norm_num, pyIntR_intCast]

/-- Scenario A: the stored second side point has x coordinate 68.  (Its y
coordinate is float-sensitive — the ideal value 72.0 truncates to 72 while
the IEEE pipeline computes 71.99…9 and truncates to 71 — so only the robust
x coordinate is asserted.) -/
theorem arrowA_p2x : (Arrow.p2 (250, 50) (30, 50) (1/5)).1 = 68 := by
  unfold Arrow.p2
  dsimp only
  rw [arrowA_p2exact]
  dsimp only
  rw [pyIntR_eq_floor _ (by positivity), floor_30_22sqrt3]

/-- Scenario A: `base_center` has x coordinate 68 (its y coordinate inherits
the float sensitivity of the stored second side point). -/
theorem arrowA_basex : (Arrow.base_center (250, 50) (30, 50) (1/5)).1 = 68 := by
  unfold Arrow.base_center
  dsimp only
  rw [arrowA_p1, arrowA_p2x]
  decide

/-- C6 counterexample: for `start=(0,0)`, `end=(223,0)`, `tip_length=0.2`,
the code computes `max(1, int(0.2 * 223)) = 44` (truncation), while the
claimed `max(1, round(0.2 * 223))` is `45`. -/
theorem C6_counterexample :
    Arrow.arrowhead_length (0, 0) (223, 0) (1/5) = 44 ∧
    max 1 (round (((1/5 : ℚ) : ℝ) * Arrow.arrow_length (0, 0) (223, 0))) = 45 := by
  have hlen : Arrow.arrow_length (0, 0) (223, 0) = 223 := by
    unfold Arrow.arrow_length Arrow.vecR
    dsimp only
    rw [show (((223 : ℤ) - 0 : ℤ) : ℝ) ^ 2 + (((0 : ℤ) - 0 : ℤ) : ℝ) ^ 2
        = (223 : ℝ) ^ 2 by push_cast; ring]
    rw [Real.sqrt_sq (by norm_num)]
  constructor
  · unfold Arrow.arrowhead_length
    rw [hlen]
    have hval : ((1/5 : ℚ) : ℝ) * 223 = 223 / 5 := by push_cast; ring
    rw [hval, pyIntR_eq_floor _ (by norm_num)]
    rw [show ⌊(223 : ℝ) / 5⌋ = 44 from by
      rw [Int.floor_eq_iff]
      norm_num]
    decide
  · rw [hlen]
    have hval : ((1/5 : ℚ) : ℝ) * 223 = 223 / 5 := by push_cast; ring
    rw [hval, round_eq]
    rw [show ⌊(223 : ℝ) / 5 + 1 / 2⌋ = 45 from by
      rw [Int.floor_eq_iff]
      norm_num]
    decide

/-- C6 (amended): the arrowhead length of a solid `draw_arrow` call is
`max(1, int(tip_length * arrow_length))` — Python `int` truncation, not
`round` (see the counterexample).  In the concrete scenario `start=(250,50)`,
`end=(30,50)`, `tip_length=0.2`, `thickness=8`, solid head with round cap:
the head length is 44 px; the exact side points `p1`, `p2` lie 44 px from
`end` at `±30°` from the shaft's (horizontal) direction; the stored first
side point is `(68, 28)`; the stored second side point and `base_center`
both have x coordinate 68; `base_center` is the integer midpoint of the two
stored side points; and the shaft line is drawn from `start` to
`base_center`, not to `end` (their x coordinates, 68 and 30, differ).  The y
coordinates of the stored `p2` and of `base_center` are float-sensitive
(ideal arithmetic truncates exactly 72.0 to 72 where the IEEE pipeline
computes 71.99…9 and truncates to 71, giving 71 and 49), so they are
deliberately not asserted. -/
theorem C6_arrow_scenario :
    Arrow.arrowhead_length (250, 50) (30, 50) (1/5) = 44 ∧
    Arrow.p1exact (250, 50) (30, 50) (1/5)
      = ((30 : ℝ) + 44 * Real.cos (Real.pi / 6),
         (50 : ℝ) - 44 * Real.sin (Real.pi / 6)) ∧
    Arrow.p2exact (250, 50) (30, 50) (1/5)
      = ((30 : ℝ) + 44 * Real.cos (Real.pi / 6),
         (50 : ℝ) + 44 * Real.sin (Real.pi / 6)) ∧
    Real.sqrt (((Arrow.p1exact (250, 50) (30, 50) (1/5)).1 - 30) ^ 2
        + ((Arrow.p1exact (250, 50) (30, 50) (1/5)).2 - 50) ^ 2) = 44 ∧
    Real.sqrt (((Arrow.p2exact (250, 50) (30, 50) (1/5)).1 - 30) ^ 2
        + ((Arrow.p2exact (250, 50) (30, 50) (1/5)).2 - 50) ^ 2) = 44 ∧
    Arrow.p1 (250, 50) (30, 50) (1/5) = (68, 28) ∧
    (Arrow.p2 (250, 50) (30, 50) (1/5)).1 = 68 ∧
    Arrow.base_center (250, 50) (30, 50) (1/5)
      = (pyDiv ((Arrow.p1 (250, 50) (30, 50) (1/5)).1
            + (Arrow.p2 (250, 50) (30, 50) (1/5)).1) 2,
         pyDiv ((Arrow.p1 (250, 50) (30, 50) (1/5)).2
            + (Arrow.p2 (250, 50) (30, 50) (1/5)).2) 2) ∧
    (Arrow.base_center (250, 50) (30, 50) (1/5)).1 = 68 ∧
    Arrow.draw_arrow_cmds (250, 50) (30, 50) (1/5) (0, 0, 255) 8 true "round"
      = [.line (250, 50) (Arrow.base_center (250, 50) (30, 50) (1/5))
           (0, 0, 255) 8 true,
         .circle (250, 50) 4 (0, 0, 255) (-1),
         .circle (Arrow.base_center (250, 50) (30, 50) (1/5)) 4 (0, 0, 255) (-1),
         .fillPoly [(30, 50), Arrow.p1 (250, 50) (30, 50) (1/5),
           Arrow.p2 (250, 50) (30, 50) (1/5)] (0, 0, 255)] ∧
    Arrow.base_center (250, 50) (30, 50) (1/5) ≠ ((30 : ℤ), (50 : ℤ)) := by
  have h3 : Real.sqrt 3 ^ 2 = 3 := Real.sq_sqrt (by norm_num)
  have hd1 : ((30 : ℝ) + 22 * Real.sqrt 3 - 30) ^ 2 + ((28 : ℝ) - 50) ^ 2
      = 1936 := by linear_combination 484 * h3
  have hd2 : ((30 : ℝ) + 22 * Real.sqrt 3 - 30) ^ 2 + ((72 : ℝ) - 50) ^ 2
      = 1936 := by linear_combination 484 * h3
  refine ⟨arrowA_head, ?_, ?_, ?_, ?_, arrowA_p1, arrowA_p2x, rfl, arrowA_basex,
    ?_, ?_⟩
  · rw [arrowA_p1exact, Real.cos_pi_div_six, Real.sin_pi_div_six,
      Prod.mk.injEq]
    constructor <;> ring
  · rw [arrowA_p2exact, Real.cos_pi_div_six, Real.sin_pi_div_six,
      Prod.mk.injEq]
    constructor <;> ring
  · rw [arrowA_p1exact]
    dsimp only
    rw [hd1, show (1936 : ℝ) = 44 ^ 2 by norm_num, Real.sqrt_sq (by norm_num)]
  · rw [arrowA_p2exact]
    dsimp only
    rw [hd2, show (1936 : ℝ) = 44 ^ 2 by norm_num, Real.sqrt_sq (by norm_num)]
  · unfold Arrow.draw_arrow_cmds Arrow.shaftCmds
    rw [if_pos rfl, if_pos pyLower_round]
    rw [show pyDiv 8 2 = 4 from by decide]
    rfl
  · intro hEq
    have hx := congrArg Prod.fst hEq
    rw [arrowA_basex] at hx
    exact absurd hx (by decide)

/-- Scenario `start=(31,50)`, `end=(30,50)`, `tip=2`: head length 2. -/
theorem arrowB_head : Arrow.arrowhead_length (31, 50) (30, 50) 2 = 2 := by
  unfold Arrow.arrowhead_length
  rw [arrow_length_horiz 31 30 50 (by norm_num)]
  rw [show ((2 : ℚ) : ℝ) * (((31 : ℤ) - 30 : ℤ) : ℝ) = ((2 : ℤ) : ℝ) by
    push_cast; norm_num]
  rw [pyIntR_intCast]
  decide

/-- Scenario B: stored first side point `(31, 49)`. -/
theorem arrowB_p1 : Arrow.p1 (31, 50) (30, 50) 2 = (31, 49) := by
  unfold Arrow.p1
  rw [p1exact_horiz 31 30 50 2 (by norm_num), arrowB_head]
  dsimp only
  rw [Prod.mk.injEq]
  obtain ⟨h1, h2⟩ := sqrt3_bounds
  constructor
  · rw [show (((30 : ℤ) : ℝ)) + ((2 : ℤ) : ℝ) * (Real.sqrt 3 / 2)
        = 30 + Real.sqrt 3 by push_cast; ring]
    rw [pyIntR_eq_floor _ (by positivity), Int.floor_eq_iff]
    constructor <;> push_cast <;> linarith
  · rw [show (((50 : ℤ) : ℝ)) - ((2 : ℤ) : ℝ) * (1 / 2) = ((49 : ℤ) : ℝ) by
      push_cast; ring]
    rw [pyIntR_intCast]

/-- Scenario B: stored second side point `(31, 51)`. -/
theorem arrowB_p2 : Arrow.p2 (31, 50) (30, 50) 2 = (31, 51) := by
  unfold Arrow.p2
  rw [p2exact_horiz 31 30 50 2 (by norm_num), arrowB_head]
  dsimp only
  rw [Prod.mk.injEq]
  obtain ⟨h1, h2⟩ := sqrt3_bounds
  constructor
  · rw [show (((30 : ℤ) : ℝ)) + ((2 : ℤ) : ℝ) * (Real.sqrt 3 / 2)
        = 30 + Real.sqrt 3 by push_cast; ring]
    rw [pyIntR_eq_floor _ (by positivity), Int.floor_eq_iff]
    constructor <;> push_cast <;> linarith
  · rw [show (((50 : ℤ) : ℝ)) + ((2 : ℤ) : ℝ) * (1 / 2) = ((51 : ℤ) : ℝ) by
      push_cast; ring]
    rw [pyIntR_intCast]

/-- Scenario B: `base_center` coincides with `start` — a zero-length shaft
after head subtraction. -/
theorem arrowB_base : Arrow.base_center (31, 50) (30, 50) 2 = (31, 50) := by
  unfold Arrow.base_center
  rw [arrowB_p1, arrowB_p2]
  dsimp only
  decide

/-- C7: for every solid-arrowhead `draw_arrow` call with `square` shaft cap
where `start` equals `base_center` (zero-length shaft after head
subtraction), the shaft length `L = hypot(dx, dy)` is `0`, the guarded
`if L != 0` branch is not taken — so the division by `L` never happens and
no degenerate zero-area polygon is filled — and the shaft is drawn as a
plain line instead; the arrowhead triangle is still filled. -/
theorem C7_zero_shaft_plain_line (s e : ℤ × ℤ) (tip : ℚ)
    (color : ℤ × ℤ × ℤ) (th : ℤ)
    (h : Arrow.base_center s e tip = s) :
    Arrow.draw_arrow_cmds s e tip color th true "square"
      = [.line s (Arrow.base_center s e tip) color th true,
         .fillPoly [e, Arrow.p1 s e tip, Arrow.p2 s e tip] color] := by
  have hL : Real.sqrt ((((Arrow.base_center s e tip).1 - s.1 : ℤ) : ℝ) ^ 2
      + (((Arrow.base_center s e tip).2 - s.2 : ℤ) : ℝ) ^ 2) = 0 := by
    rw [h]
    simp
  unfold Arrow.draw_arrow_cmds Arrow.shaftCmds
  rw [if_pos rfl, if_neg (by rw [pyLower_square]; exact pyLower_square_ne_round),
    if_pos pyLower_square]
  dsimp only
  rw [if_neg (not_not_intro hL)]
  rfl

/-- Witness for C7 at the concrete call `start=(31,50)`, `end=(30,50)`,
`tip=2`, where `base_center = start`. -/
theorem C7_witness :
    Arrow.base_center (31, 50) (30, 50) 2 = (31, 50) ∧
    Arrow.draw_arrow_cmds (31, 50) (30, 50) 2 (0, 255, 0) 10 true "square"
      = [.line (31, 50) (Arrow.base_center (31, 50) (30, 50) 2) (0, 255, 0)
           10 true,
         .fillPoly [(30, 50), Arrow.p1 (31, 50) (30, 50) 2,
           Arrow.p2 (31, 50) (30, 50) 2] (0, 255, 0)] :=
  ⟨arrowB_base, C7_zero_shaft_plain_line (31, 50) (30, 50) 2 (0, 255, 0) 10
    arrowB_base⟩
